import Mathlib

/-!
Verification of `tfx/dsl/component/experimental/container_components.py`.

The file under verification is a factory that builds a container-based
pipeline-component definition from declarative lists of input, output and
parameter descriptors, a container image string and a command-line template.
We embed the descriptor records, the Python dictionaries the factory
populates (as insertion-ordered association lists with last-wins
assignment), the factory itself, and the generated component class's
`__init__` closure, and prove the spec's claims about them.

Artifact types are opaque tokens understood by the collaborator framework;
we model them as natural-number tokens.  Collaborator classes that live
outside this file (`channel.Channel`, `component_spec.ChannelParameter`,
`component_spec.ExecutionParameter`, `executor_specs`, `base_component`)
are modelled as plain records holding exactly their constructor arguments,
following the spec's description of those contracts.
-/

/-- An opaque artifact-type token (`type` fields of the descriptors). -/
abbrev ArtifactType := Nat

/-- Modelled from the spec: an artifact instance; instantiating an artifact
type with no arguments produces an "empty" placeholder instance of it. -/
structure Artifact where
  type : ArtifactType
deriving DecidableEq, Repr

/-- Modelled from the spec: `channel.Channel`, a container wrapping an
artifact type plus a sequence of artifact instances. -/
structure Channel where
  type : ArtifactType
  artifacts : List Artifact
deriving DecidableEq, Repr

/-- Modelled from the spec: `component_spec.ChannelParameter(type=...)`,
a typed channel declaration. -/
structure ChannelParameter where
  type : ArtifactType
deriving DecidableEq, Repr

/-- Modelled from the spec: `component_spec.ExecutionParameter(type=...)`,
a typed execution-parameter declaration. -/
structure ExecutionParameter where
  type : ArtifactType
deriving DecidableEq, Repr

/-- `InputSpec(name, type, optional)`: describes a component input
(also reused for parameters). -/
structure InputSpec where
  name : String
  type : ArtifactType
  optional : Bool
deriving DecidableEq, Repr

/-- `OutputSpec(name, type)`: describes a component output. -/
structure OutputSpec where
  name : String
  type : ArtifactType
deriving DecidableEq, Repr

/-- Modelled from the spec: `executor_specs.CommandlineArgumentType` — a
command-line element is either a literal string or a placeholder object
resolved by the downstream executor layer. -/
inductive CommandlineArgumentType where
  | text (s : String)
  | inputUriPlaceholder (input_name : String)
  | outputUriPlaceholder (output_name : String)
  | inputValuePlaceholder (input_name : String)
deriving DecidableEq, Repr

/-- Modelled from the spec: `executor_specs.TemplatedExecutorContainerSpec`,
an executor descriptor carrying the container image and the command-line
template. -/
structure TemplatedExecutorContainerSpec where
  image : String
  command : List CommandlineArgumentType
deriving DecidableEq, Repr

/-! ### Python dictionaries

The factory populates `dict`s keyed by descriptor names.  A Python `dict`
is insertion-ordered; assignment to an existing key overwrites its value
in place, assignment to a fresh key appends.  We model it as an
association list with exactly these operations. -/

/-- A Python `dict` with string keys: an insertion-ordered association list. -/
abbrev Dict (α : Type) := List (String × α)

namespace Dict

/-- `d[k] = v`: overwrite the entry for `k` in place if present, else append. -/
def set {α : Type} : Dict α → String → α → Dict α
  | [], k, v => [(k, v)]
  | p :: rest, k, v => if p.1 = k then (k, v) :: rest else p :: set rest k v

/-- `d.get(k)` / `d[k]` as a partial lookup. -/
def get? {α : Type} (d : Dict α) (k : String) : Option α :=
  (List.find? (fun p => p.1 == k) d).map Prod.snd

/-- The keys of the dictionary, in insertion order. -/
def keys {α : Type} (d : Dict α) : List String :=
  d.map Prod.fst

/-- The number of entries stored under key `k` (1 for a well-formed dict
that contains `k`, 0 otherwise). -/
def countKey {α : Type} (d : Dict α) (k : String) : Nat :=
  List.countP (fun p => p.1 == k) d

/-- `d.update(e)`: assign every entry of `e` into `d`, in order. -/
def update {α : Type} (d e : Dict α) : Dict α :=
  e.foldl (fun acc p => set acc p.1 p.2) d

/-- Removal of a key, as performed by `d.pop(k, default)`. -/
def erase {α : Type} (d : Dict α) (k : String) : Dict α :=
  d.filter (fun p => !(p.1 == k))

/-- Map a function over the stored values, keeping keys and order. -/
def mapVal {α β : Type} (f : α → β) (d : Dict α) : Dict β :=
  d.map (fun p => (p.1, f p.2))

end Dict

/-! ### The factory, translated statement by statement -/

/-- `_create_channel_with_empty_artifact(artifact_type)`: a channel of the
given type wrapping exactly one artifact obtained by instantiating the
type with no arguments. -/
def create_channel_with_empty_artifact (artifact_type : ArtifactType) : Channel :=
  { type := artifact_type, artifacts := [{ type := artifact_type }] }

/-- The `for input_spec in inputs or []` loop: one pass building
`input_channel_parameters` (first component) and `default_input_channels`
(second component). -/
def collect_inputs (inputs : List InputSpec) :
    Dict ChannelParameter × Dict Channel :=
  inputs.foldl
    (fun acc input_spec =>
      (Dict.set acc.1 input_spec.name { type := input_spec.type },
       if input_spec.optional then
         Dict.set acc.2 input_spec.name
           (create_channel_with_empty_artifact input_spec.type)
       else acc.2))
    ([], [])

/-- The `for output_spec in outputs or []` loop: one pass building
`output_channel_parameters` (first component) and `output_channels`
(second component). -/
def collect_outputs (outputs : List OutputSpec) :
    Dict ChannelParameter × Dict Channel :=
  outputs.foldl
    (fun acc output_spec =>
      (Dict.set acc.1 output_spec.name { type := output_spec.type },
       Dict.set acc.2 output_spec.name
         (create_channel_with_empty_artifact output_spec.type)))
    ([], [])

/-- The `for input_spec in parameters or []` loop building
`execution_parameters`. -/
def collect_execution_parameters (parameters : List InputSpec) :
    Dict ExecutionParameter :=
  parameters.foldl
    (fun acc input_spec =>
      Dict.set acc input_spec.name { type := input_spec.type })
    []

/-- The dynamically created specification class
(`type(component_class_name + 'Spec', (ComponentSpec,), dict(...))`):
its identifier and its three class-level declaration maps. -/
structure ComponentSpecClass where
  name : String
  PARAMETERS : Dict ExecutionParameter
  INPUTS : Dict ChannelParameter
  OUTPUTS : Dict ChannelParameter
deriving DecidableEq, Repr

/-- The dynamically created component class
(`type(component_class_name, (BaseComponent,), dict(...))`): its
identifier, its `SPEC_CLASS` and `EXECUTOR_SPEC` class attributes, and
the two dictionaries captured by the `__init__` closure. -/
structure ComponentClass where
  name : String
  SPEC_CLASS : ComponentSpecClass
  EXECUTOR_SPEC : TemplatedExecutorContainerSpec
  default_input_channels : Dict Channel
  output_channels : Dict Channel
deriving DecidableEq, Repr

/-- `create_container_component(name, inputs, outputs, parameters, image,
command)`.  `none` models a Python `None` argument (`inputs or []`
replaces both `None` and `[]` with the empty list); `name or 'Component'`
replaces an empty name with `'Component'`. -/
def create_container_component (name : String)
    (inputs : Option (List InputSpec)) (outputs : Option (List OutputSpec))
    (parameters : Option (List InputSpec))
    (image : String) (command : List CommandlineArgumentType) : ComponentClass :=
  let collected_in := collect_inputs (inputs.getD [])
  let collected_out := collect_outputs (outputs.getD [])
  let execution_parameters := collect_execution_parameters (parameters.getD [])
  let component_name := if name = "" then "Component" else name
  let component_class_name := component_name
  let tfx_component_spec_class : ComponentSpecClass :=
    { name := component_class_name ++ "Spec"
      PARAMETERS := execution_parameters
      INPUTS := collected_in.1
      OUTPUTS := collected_out.1 }
  { name := component_class_name
    SPEC_CLASS := tfx_component_spec_class
    EXECUTOR_SPEC := { image := image, command := command }
    default_input_channels := collected_in.2
    output_channels := collected_out.2 }

/-! ### The generated component's `__init__` -/

/-- A value held in the keyword-argument dictionary of the generated
constructor: a channel, or a plain (parameter or instance-name) value. -/
inductive Value where
  | channel (c : Channel)
  | int (i : Int)
  | str (s : String)
deriving DecidableEq, Repr

/-- Modelled from the spec: the specification instance
`SPEC_CLASS(**arguments)` — the specification class applied to the merged
keyword-argument map. -/
structure SpecInstance where
  cls : ComponentSpecClass
  args : Dict Value
deriving DecidableEq, Repr

/-- Modelled from the spec: the state `base_component.BaseComponent.__init__`
receives — a specification instance and an optional instance name. -/
structure BaseComponentState where
  spec : SpecInstance
  instance_name : Option Value
deriving DecidableEq, Repr

/-- Modelled from the spec: `base_component.BaseComponent.__init__(self,
spec=..., instance_name=...)` stores the specification instance and the
instance name. -/
def base_component_init (spec : SpecInstance) (instance_name : Option Value) :
    BaseComponentState :=
  { spec := spec, instance_name := instance_name }

/-- `tfx_component_class_init(self, **kwargs)`: pop `'instance_name'`
(defaulting to `None`), build `arguments` by updating an empty dict with
the captured default input channels, then the captured output channels,
then the remaining keyword arguments, and delegate to the base
component's `__init__` with `SPEC_CLASS(**arguments)`. -/
def tfx_component_class_init (cls : ComponentClass) (kwargs : Dict Value) :
    BaseComponentState :=
  let instance_name := Dict.get? kwargs "instance_name"
  let kwargs := Dict.erase kwargs "instance_name"
  let arguments : Dict Value := []
  let arguments := Dict.update arguments (Dict.mapVal Value.channel cls.default_input_channels)
  let arguments := Dict.update arguments (Dict.mapVal Value.channel cls.output_channels)
  let arguments := Dict.update arguments kwargs
  base_component_init { cls := cls.SPEC_CLASS, args := arguments } instance_name

/-! ### Dictionary lemmas -/

namespace Dict

variable {α β : Type}

theorem keys_eq_map (d : Dict α) : keys d = d.map Prod.fst := rfl

theorem get?_cons (p : String × α) (d : Dict α) (k : String) :
    get? (p :: d) k = if p.1 = k then some p.2 else get? d k := by
  simp only [get?, List.find?_cons]
  by_cases h : p.1 = k
  · rw [if_pos h, show (p.1 == k) = true by simpa using h]
    rfl
  · rw [if_neg h, show (p.1 == k) = false by simpa using h]

theorem get?_set (d : Dict α) (k k' : String) (v : α) :
    get? (set d k v) k' = if k' = k then some v else get? d k' := by
  induction d with
  | nil =>
    rw [show set ([] : Dict α) k v = [(k, v)] from rfl, get?_cons]
    by_cases h : k' = k
    · simp [h]
    · simp [h, Ne.symm h]
  | cons p rest ih =>
    by_cases hp : p.1 = k
    · rw [show set (p :: rest) k v = (k, v) :: rest by simp [set, hp],
        get?_cons, get?_cons]
      by_cases h : k' = k
      · simp [h]
      · have h2 : ¬ p.1 = k' := by rw [hp]; exact Ne.symm h
        simp [h, Ne.symm h, h2]
    · rw [show set (p :: rest) k v = p :: set rest k v by simp [set, hp],
        get?_cons, get?_cons, ih]
      by_cases hq : p.1 = k'
      · have hne : ¬ k' = k := fun hh => hp (by rw [hq, hh])
        simp [hq, hne]
      · simp [hq]

theorem keys_set (d : Dict α) (k : String) (v : α) :
    keys (set d k v) = if k ∈ keys d then keys d else keys d ++ [k] := by
  induction d with
  | nil => simp [set, keys]
  | cons p rest ih =>
    have hkc : keys (p :: rest) = p.1 :: keys rest := rfl
    by_cases hp : p.1 = k
    · have hm : k ∈ keys (p :: rest) := by
        rw [hkc, ← hp]; exact List.mem_cons_self p.1 (keys rest)
      rw [show set (p :: rest) k v = (k, v) :: rest by simp [set, hp],
        if_pos hm, hkc]
      show k :: keys rest = p.1 :: keys rest
      rw [hp]
    · have hne : ¬ k = p.1 := fun h => hp h.symm
      by_cases h : k ∈ keys rest
      · have hm : k ∈ keys (p :: rest) := by
          rw [hkc]; exact List.mem_cons_of_mem p.1 h
        rw [show set (p :: rest) k v = p :: set rest k v by simp [set, hp],
          if_pos hm]
        show p.1 :: keys (set rest k v) = keys (p :: rest)
        rw [ih, if_pos h, hkc]
      · have hm : k ∉ keys (p :: rest) := by
          rw [hkc]; intro hc
          rcases List.mem_cons.mp hc with h1 | h2
          · exact hne h1
          · exact h h2
        rw [show set (p :: rest) k v = p :: set rest k v by simp [set, hp],
          if_neg hm]
        show p.1 :: keys (set rest k v) = keys (p :: rest) ++ [k]
        rw [ih, if_neg h, hkc]
        rfl

theorem nodup_keys_set (d : Dict α) (k : String) (v : α)
    (h : (keys d).Nodup) : (keys (set d k v)).Nodup := by
  rw [keys_set]
  by_cases hm : k ∈ keys d
  · simpa [hm] using h
  · simp [hm, List.nodup_append, h]

theorem get?_eq_none (d : Dict α) (k : String) :
    get? d k = none ↔ k ∉ keys d := by
  induction d with
  | nil => simp [get?, keys]
  | cons p rest ih =>
    rw [get?_cons]
    by_cases h : p.1 = k
    · simp [h, keys_eq_map]
    · rw [if_neg h, ih]
      simp [keys_eq_map, List.mem_cons, Ne.symm h]

theorem countKey_eq_zero (d : Dict α) (k : String) (h : k ∉ keys d) :
    countKey d k = 0 := by
  rw [countKey, List.countP_eq_zero]
  intro p hp
  intro hpk
  rw [beq_iff_eq] at hpk
  exact h (by rw [keys_eq_map]; exact hpk ▸ List.mem_map_of_mem Prod.fst hp)

theorem countKey_eq_one (d : Dict α) (k : String)
    (hnd : (keys d).Nodup) (h : k ∈ keys d) : countKey d k = 1 := by
  induction d with
  | nil => cases h
  | cons p rest ih =>
    have hkc : keys (p :: rest) = p.1 :: keys rest := rfl
    rw [hkc, List.nodup_cons] at hnd
    rw [hkc] at h
    rw [countKey, List.countP_cons]
    rcases List.mem_cons.mp h with heq | hk
    · have hz : countKey rest k = 0 :=
        countKey_eq_zero rest k (by rw [heq]; exact hnd.1)
      rw [countKey] at hz
      rw [hz, show (p.1 == k) = true by simpa using heq.symm]
      simp
    · have hne : ¬ p.1 = k := fun hh => hnd.1 (hh.symm ▸ hk)
      rw [show (p.1 == k) = false by simpa using hne]
      have hone := ih hnd.2 hk
      rw [countKey] at hone
      simpa using hone

theorem get?_update (d e : Dict α) (k : String) :
    get? (update d e) k =
      match List.find? (fun p => p.1 == k) e.reverse with
      | some p => some p.2
      | none => get? d k := by
  induction e using List.reverseRecOn with
  | nil => simp [update]
  | append_singleton l p ih =>
    have hfold : update d (l ++ [p]) = set (update d l) p.1 p.2 := by
      simp [update, List.foldl_append]
    rw [hfold, get?_set, List.reverse_append]
    simp only [List.reverse_cons, List.reverse_nil, List.nil_append,
      List.singleton_append, List.find?_cons]
    by_cases h : p.1 = k
    · rw [if_pos (h.symm), show (p.1 == k) = true by simpa using h]
    · rw [if_neg (Ne.symm h), show (p.1 == k) = false by simpa using h, ih]

end Dict

/-! ### Unique-key lookup lemmas

When the names of a descriptor list are pairwise distinct, `find?` by a
member's name returns exactly that member. -/

theorem find?_keyed_eq_some {β : Type} (f : β → String) (l : List β) (s : β)
    (hnd : (l.map f).Nodup) (hs : s ∈ l) :
    List.find? (fun t => f t == f s) l = some s := by
  induction l with
  | nil => cases hs
  | cons a t ih =>
    rw [List.map_cons, List.nodup_cons] at hnd
    rw [List.find?_cons]
    by_cases ha : f a = f s
    · have hsa : s = a := by
        rcases List.mem_cons.mp hs with h | hst
        · exact h
        · exact absurd (by rw [ha]; exact List.mem_map_of_mem f hst) hnd.1
      rw [show (f a == f s) = true by simpa using ha, hsa]
    · have hst : s ∈ t := by
        rcases List.mem_cons.mp hs with h | hst
        · exact absurd (congrArg f h.symm) ha
        · exact hst
      rw [show (f a == f s) = false by simpa using ha]
      exact ih hnd.2 hst

theorem find?_keyed_and_eq_some {β : Type} (f : β → String) (q : β → Bool)
    (l : List β) (s : β) (hnd : (l.map f).Nodup) (hs : s ∈ l)
    (hq : q s = true) :
    List.find? (fun t => f t == f s && q t) l = some s := by
  induction l with
  | nil => cases hs
  | cons a t ih =>
    rw [List.map_cons, List.nodup_cons] at hnd
    rw [List.find?_cons]
    by_cases ha : f a = f s
    · have hsa : s = a := by
        rcases List.mem_cons.mp hs with h | hst
        · exact h
        · exact absurd (by rw [ha]; exact List.mem_map_of_mem f hst) hnd.1
      have hqa : q a = true := by rw [← hsa]; exact hq
      rw [show (f a == f s && q a) = true by simp [ha, hqa], hsa]
    · have hst : s ∈ t := by
        rcases List.mem_cons.mp hs with h | hst
        · exact absurd (congrArg f h.symm) ha
        · exact hst
      rw [show (f a == f s && q a) = false by simp [ha]]
      exact ih hnd.2 hst

theorem find?_keyed_and_eq_none {β : Type} (f : β → String) (q : β → Bool)
    (l : List β) (s : β) (hnd : (l.map f).Nodup) (hs : s ∈ l)
    (hq : q s = false) :
    List.find? (fun t => f t == f s && q t) l = none := by
  rw [List.find?_eq_none]
  intro t ht hc
  simp only [Bool.and_eq_true, beq_iff_eq] at hc
  obtain ⟨h1, h2⟩ := hc
  have ht2 : t = s := List.inj_on_of_nodup_map hnd ht hs h1
  rw [ht2, hq] at h2
  exact Bool.false_ne_true h2

theorem find?_reverse_of_nodup_keys {α : Type} (d : Dict α) (k : String)
    (hnd : (Dict.keys d).Nodup) :
    List.find? (fun p => p.1 == k) d.reverse =
      List.find? (fun p => p.1 == k) d := by
  by_cases hm : k ∈ Dict.keys d
  · obtain ⟨q, hq, hqk⟩ :=
      List.mem_map.mp (by rw [Dict.keys_eq_map] at hm; exact hm)
    have hndm : (d.map Prod.fst).Nodup := by
      rw [Dict.keys_eq_map] at hnd; exact hnd
    have hndr : (d.reverse.map Prod.fst).Nodup := by
      rw [List.map_reverse]
      exact List.nodup_reverse.mpr hndm
    have e1 := find?_keyed_eq_some Prod.fst d q hndm hq
    have e2 := find?_keyed_eq_some Prod.fst d.reverse q hndr
      (List.mem_reverse.mpr hq)
    rw [hqk] at e1 e2
    rw [e1, e2]
  · have h1 : List.find? (fun p => p.1 == k) d = none := by
      rw [List.find?_eq_none]
      intro p hp hpk
      rw [beq_iff_eq] at hpk
      exact hm (by rw [Dict.keys_eq_map]; exact hpk ▸ List.mem_map_of_mem Prod.fst hp)
    have h2 : List.find? (fun p => p.1 == k) d.reverse = none := by
      rw [List.find?_eq_none]
      intro p hp hpk
      rw [beq_iff_eq] at hpk
      exact hm (by
        rw [Dict.keys_eq_map]
        exact hpk ▸ List.mem_map_of_mem Prod.fst (List.mem_reverse.mp hp))
    rw [h1, h2]

/-! ### Characterization of the three collection loops

Each loop's dictionaries are characterized by a last-wins lookup: the
entry stored under a name comes from the last descriptor with that name
(for the conditional default-input-channel assignment: the last
*optional* descriptor with that name). -/

theorem collect_inputs_concat (l : List InputSpec) (s : InputSpec) :
    collect_inputs (l ++ [s]) =
      (Dict.set (collect_inputs l).1 s.name { type := s.type },
       if s.optional then
         Dict.set (collect_inputs l).2 s.name
           (create_channel_with_empty_artifact s.type)
       else (collect_inputs l).2) := by
  simp [collect_inputs, List.foldl_append]

theorem collect_inputs_fst_get? (l : List InputSpec) (k : String) :
    Dict.get? (collect_inputs l).1 k =
      (List.find? (fun s => s.name == k) l.reverse).map
        (fun s => ({ type := s.type } : ChannelParameter)) := by
  induction l using List.reverseRecOn with
  | nil => rfl
  | append_singleton l s ih =>
    rw [collect_inputs_concat, List.reverse_append]
    simp only [List.reverse_cons, List.reverse_nil, List.nil_append,
      List.singleton_append, List.find?_cons]
    rw [Dict.get?_set]
    by_cases h : s.name = k
    · rw [if_pos h.symm, show (s.name == k) = true by simpa using h]
      rfl
    · rw [if_neg (Ne.symm h), show (s.name == k) = false by simpa using h, ih]

theorem collect_inputs_snd_get? (l : List InputSpec) (k : String) :
    Dict.get? (collect_inputs l).2 k =
      (List.find? (fun s => s.name == k && s.optional) l.reverse).map
        (fun s => create_channel_with_empty_artifact s.type) := by
  induction l using List.reverseRecOn with
  | nil => rfl
  | append_singleton l s ih =>
    rw [collect_inputs_concat, List.reverse_append]
    simp only [List.reverse_cons, List.reverse_nil, List.nil_append,
      List.singleton_append, List.find?_cons]
    by_cases ho : s.optional
    · rw [if_pos ho, Dict.get?_set]
      by_cases h : s.name = k
      · rw [if_pos h.symm, show (s.name == k && s.optional) = true by simp [h, ho]]
        rfl
      · rw [if_neg (Ne.symm h),
          show (s.name == k && s.optional) = false by simp [h], ih]
    · rw [if_neg ho,
        show (s.name == k && s.optional) = false by simp [Bool.eq_false_iff.mpr ho], ih]

theorem collect_inputs_fst_nodup (l : List InputSpec) :
    (Dict.keys (collect_inputs l).1).Nodup := by
  induction l using List.reverseRecOn with
  | nil => exact List.nodup_nil
  | append_singleton l s ih =>
    rw [collect_inputs_concat]
    exact Dict.nodup_keys_set _ _ _ ih

theorem collect_inputs_snd_nodup (l : List InputSpec) :
    (Dict.keys (collect_inputs l).2).Nodup := by
  induction l using List.reverseRecOn with
  | nil => exact List.nodup_nil
  | append_singleton l s ih =>
    rw [collect_inputs_concat]
    by_cases ho : s.optional
    · rw [if_pos ho]
      exact Dict.nodup_keys_set _ _ _ ih
    · rw [if_neg ho]
      exact ih

theorem collect_outputs_concat (l : List OutputSpec) (s : OutputSpec) :
    collect_outputs (l ++ [s]) =
      (Dict.set (collect_outputs l).1 s.name { type := s.type },
       Dict.set (collect_outputs l).2 s.name
         (create_channel_with_empty_artifact s.type)) := by
  simp [collect_outputs, List.foldl_append]

theorem collect_outputs_fst_get? (l : List OutputSpec) (k : String) :
    Dict.get? (collect_outputs l).1 k =
      (List.find? (fun s => s.name == k) l.reverse).map
        (fun s => ({ type := s.type } : ChannelParameter)) := by
  induction l using List.reverseRecOn with
  | nil => rfl
  | append_singleton l s ih =>
    rw [collect_outputs_concat, List.reverse_append]
    simp only [List.reverse_cons, List.reverse_nil, List.nil_append,
      List.singleton_append, List.find?_cons]
    rw [Dict.get?_set]
    by_cases h : s.name = k
    · rw [if_pos h.symm, show (s.name == k) = true by simpa using h]
      rfl
    · rw [if_neg (Ne.symm h), show (s.name == k) = false by simpa using h, ih]

theorem collect_outputs_snd_get? (l : List OutputSpec) (k : String) :
    Dict.get? (collect_outputs l).2 k =
      (List.find? (fun s => s.name == k) l.reverse).map
        (fun s => create_channel_with_empty_artifact s.type) := by
  induction l using List.reverseRecOn with
  | nil => rfl
  | append_singleton l s ih =>
    rw [collect_outputs_concat, List.reverse_append]
    simp only [List.reverse_cons, List.reverse_nil, List.nil_append,
      List.singleton_append, List.find?_cons]
    rw [Dict.get?_set]
    by_cases h : s.name = k
    · rw [if_pos h.symm, show (s.name == k) = true by simpa using h]
      rfl
    · rw [if_neg (Ne.symm h), show (s.name == k) = false by simpa using h, ih]

theorem collect_outputs_fst_nodup (l : List OutputSpec) :
    (Dict.keys (collect_outputs l).1).Nodup := by
  induction l using List.reverseRecOn with
  | nil => exact List.nodup_nil
  | append_singleton l s ih =>
    rw [collect_outputs_concat]
    exact Dict.nodup_keys_set _ _ _ ih

theorem collect_outputs_snd_nodup (l : List OutputSpec) :
    (Dict.keys (collect_outputs l).2).Nodup := by
  induction l using List.reverseRecOn with
  | nil => exact List.nodup_nil
  | append_singleton l s ih =>
    rw [collect_outputs_concat]
    exact Dict.nodup_keys_set _ _ _ ih

theorem collect_execution_parameters_concat (l : List InputSpec) (s : InputSpec) :
    collect_execution_parameters (l ++ [s]) =
      Dict.set (collect_execution_parameters l) s.name { type := s.type } := by
  simp [collect_execution_parameters, List.foldl_append]

theorem collect_execution_parameters_get? (l : List InputSpec) (k : String) :
    Dict.get? (collect_execution_parameters l) k =
      (List.find? (fun s => s.name == k) l.reverse).map
        (fun s => ({ type := s.type } : ExecutionParameter)) := by
  induction l using List.reverseRecOn with
  | nil => rfl
  | append_singleton l s ih =>
    rw [collect_execution_parameters_concat, List.reverse_append]
    simp only [List.reverse_cons, List.reverse_nil, List.nil_append,
      List.singleton_append, List.find?_cons]
    rw [Dict.get?_set]
    by_cases h : s.name = k
    · rw [if_pos h.symm, show (s.name == k) = true by simpa using h]
      rfl
    · rw [if_neg (Ne.symm h), show (s.name == k) = false by simpa using h, ih]

theorem collect_execution_parameters_nodup (l : List InputSpec) :
    (Dict.keys (collect_execution_parameters l)).Nodup := by
  induction l using List.reverseRecOn with
  | nil => exact List.nodup_nil
  | append_singleton l s ih =>
    rw [collect_execution_parameters_concat]
    exact Dict.nodup_keys_set _ _ _ ih

/-! ### Further dictionary helper lemmas -/

theorem mem_keys_iff_get? {α : Type} (d : Dict α) (k : String) :
    k ∈ Dict.keys d ↔ Dict.get? d k ≠ none := by
  constructor
  · intro h hc
    exact (Dict.get?_eq_none d k).mp hc h
  · intro h
    by_contra hc
    exact h ((Dict.get?_eq_none d k).mpr hc)

theorem get?_erase_ne {α : Type} (d : Dict α) (k k' : String) (h : k' ≠ k) :
    Dict.get? (Dict.erase d k) k' = Dict.get? d k' := by
  induction d with
  | nil => rfl
  | cons p rest ih =>
    simp only [Dict.erase, List.filter_cons]
    by_cases hp : p.1 = k
    · rw [show (!(p.1 == k)) = false by simp [hp], if_neg (by simp)]
      rw [Dict.get?_cons, if_neg (by intro hc; exact h (hc ▸ hp)), ← Dict.erase, ih]
    · rw [show (!(p.1 == k)) = true by simp [hp], if_pos rfl]
      rw [Dict.get?_cons, Dict.get?_cons, ← Dict.erase, ih]

theorem not_mem_keys_erase_self {α : Type} (d : Dict α) (k : String) :
    k ∉ Dict.keys (Dict.erase d k) := by
  intro h
  rw [Dict.keys_eq_map] at h
  obtain ⟨p, hp, hpk⟩ := List.mem_map.mp h
  rw [Dict.erase] at hp
  have hmf := List.mem_filter.mp hp
  simp [hpk] at hmf

theorem keys_mapVal {α β : Type} (f : α → β) (d : Dict α) :
    Dict.keys (Dict.mapVal f d) = Dict.keys d := by
  induction d with
  | nil => rfl
  | cons p rest ih =>
    show p.1 :: Dict.keys (Dict.mapVal f rest) = p.1 :: Dict.keys rest
    rw [ih]

theorem nodup_keys_erase {α : Type} (d : Dict α) (k : String)
    (h : (Dict.keys d).Nodup) : (Dict.keys (Dict.erase d k)).Nodup :=
  List.Nodup.sublist (List.Sublist.map Prod.fst (List.filter_sublist d)) h

theorem get?_update_not_mem {α : Type} (d e : Dict α) (k : String)
    (h : k ∉ Dict.keys e) :
    Dict.get? (Dict.update d e) k = Dict.get? d k := by
  rw [Dict.get?_update]
  have hfind : List.find? (fun p => p.1 == k) e.reverse = none := by
    rw [List.find?_eq_none]
    intro p hp hpk
    rw [beq_iff_eq] at hpk
    exact h (by
      rw [Dict.keys_eq_map]
      exact hpk ▸ List.mem_map_of_mem Prod.fst (List.mem_reverse.mp hp))
  rw [hfind]

theorem collect_inputs_fst_countKey (l : List InputSpec) (k : String) :
    Dict.countKey (collect_inputs l).1 k =
      if k ∈ l.map InputSpec.name then 1 else 0 := by
  by_cases h : k ∈ l.map InputSpec.name
  · rw [if_pos h]
    obtain ⟨s, hs, rfl⟩ := List.mem_map.mp h
    have hex : (List.find? (fun t => t.name == s.name) l.reverse).isSome :=
      List.find?_isSome.mpr ⟨s, List.mem_reverse.mpr hs, by simp⟩
    obtain ⟨x, hx⟩ := Option.isSome_iff_exists.mp hex
    refine Dict.countKey_eq_one _ _ (collect_inputs_fst_nodup l) ?_
    rw [mem_keys_iff_get?, collect_inputs_fst_get?, hx]
    simp
  · rw [if_neg h]
    refine Dict.countKey_eq_zero _ _ ?_
    rw [mem_keys_iff_get?, collect_inputs_fst_get?]
    intro hc
    apply hc
    rw [Option.map_eq_none', List.find?_eq_none]
    intro s hsr hsk
    rw [beq_iff_eq] at hsk
    exact h (hsk ▸ List.mem_map_of_mem InputSpec.name (List.mem_reverse.mp hsr))

theorem collect_outputs_fst_countKey (l : List OutputSpec) (k : String) :
    Dict.countKey (collect_outputs l).1 k =
      if k ∈ l.map OutputSpec.name then 1 else 0 := by
  by_cases h : k ∈ l.map OutputSpec.name
  · rw [if_pos h]
    obtain ⟨s, hs, rfl⟩ := List.mem_map.mp h
    have hex : (List.find? (fun t => t.name == s.name) l.reverse).isSome :=
      List.find?_isSome.mpr ⟨s, List.mem_reverse.mpr hs, by simp⟩
    obtain ⟨x, hx⟩ := Option.isSome_iff_exists.mp hex
    refine Dict.countKey_eq_one _ _ (collect_outputs_fst_nodup l) ?_
    rw [mem_keys_iff_get?, collect_outputs_fst_get?, hx]
    simp
  · rw [if_neg h]
    refine Dict.countKey_eq_zero _ _ ?_
    rw [mem_keys_iff_get?, collect_outputs_fst_get?]
    intro hc
    apply hc
    rw [Option.map_eq_none', List.find?_eq_none]
    intro s hsr hsk
    rw [beq_iff_eq] at hsk
    exact h (hsk ▸ List.mem_map_of_mem OutputSpec.name (List.mem_reverse.mp hsr))

theorem collect_outputs_snd_countKey (l : List OutputSpec) (k : String) :
    Dict.countKey (collect_outputs l).2 k =
      if k ∈ l.map OutputSpec.name then 1 else 0 := by
  by_cases h : k ∈ l.map OutputSpec.name
  · rw [if_pos h]
    obtain ⟨s, hs, rfl⟩ := List.mem_map.mp h
    have hex : (List.find? (fun t => t.name == s.name) l.reverse).isSome :=
      List.find?_isSome.mpr ⟨s, List.mem_reverse.mpr hs, by simp⟩
    obtain ⟨x, hx⟩ := Option.isSome_iff_exists.mp hex
    refine Dict.countKey_eq_one _ _ (collect_outputs_snd_nodup l) ?_
    rw [mem_keys_iff_get?, collect_outputs_snd_get?, hx]
    simp
  · rw [if_neg h]
    refine Dict.countKey_eq_zero _ _ ?_
    rw [mem_keys_iff_get?, collect_outputs_snd_get?]
    intro hc
    apply hc
    rw [Option.map_eq_none', List.find?_eq_none]
    intro s hsr hsk
    rw [beq_iff_eq] at hsk
    exact h (hsk ▸ List.mem_map_of_mem OutputSpec.name (List.mem_reverse.mp hsr))

theorem collect_execution_parameters_countKey (l : List InputSpec) (k : String) :
    Dict.countKey (collect_execution_parameters l) k =
      if k ∈ l.map InputSpec.name then 1 else 0 := by
  by_cases h : k ∈ l.map InputSpec.name
  · rw [if_pos h]
    obtain ⟨s, hs, rfl⟩ := List.mem_map.mp h
    have hex : (List.find? (fun t => t.name == s.name) l.reverse).isSome :=
      List.find?_isSome.mpr ⟨s, List.mem_reverse.mpr hs, by simp⟩
    obtain ⟨x, hx⟩ := Option.isSome_iff_exists.mp hex
    refine Dict.countKey_eq_one _ _ (collect_execution_parameters_nodup l) ?_
    rw [mem_keys_iff_get?, collect_execution_parameters_get?, hx]
    simp
  · rw [if_neg h]
    refine Dict.countKey_eq_zero _ _ ?_
    rw [mem_keys_iff_get?, collect_execution_parameters_get?]
    intro hc
    apply hc
    rw [Option.map_eq_none', List.find?_eq_none]
    intro s hsr hsk
    rw [beq_iff_eq] at hsk
    exact h (hsk ▸ List.mem_map_of_mem InputSpec.name (List.mem_reverse.mp hsr))

/-! ### The claims -/

/-- Claim C2: for every `inputs` list (with pairwise-distinct names), each
input descriptor produces exactly one input-channel declaration keyed by
its name and typed with its type; and exactly for the descriptors whose
`optional` flag is true, a default channel keyed by the same name exists,
wrapping exactly one empty-artifact instance obtained by instantiating the
declared type with no arguments. -/
theorem claim_C2 (name : String) (outputs : Option (List OutputSpec))
    (parameters : Option (List InputSpec)) (image : String)
    (command : List CommandlineArgumentType) (inputs : List InputSpec)
    (hnd : (inputs.map InputSpec.name).Nodup) (s : InputSpec)
    (hs : s ∈ inputs) :
    Dict.get? (create_container_component name (some inputs) outputs
        parameters image command).SPEC_CLASS.INPUTS s.name =
      some { type := s.type } ∧
    Dict.countKey (create_container_component name (some inputs) outputs
        parameters image command).SPEC_CLASS.INPUTS s.name = 1 ∧
    (s.optional = true →
      Dict.get? (create_container_component name (some inputs) outputs
          parameters image command).default_input_channels s.name =
        some { type := s.type, artifacts := [{ type := s.type }] } ∧
      Dict.countKey (create_container_component name (some inputs) outputs
          parameters image command).default_input_channels s.name = 1) ∧
    (s.optional = false →
      Dict.get? (create_container_component name (some inputs) outputs
          parameters image command).default_input_channels s.name = none) := by
  have hndr : (inputs.reverse.map InputSpec.name).Nodup := by
    rw [List.map_reverse]
    exact List.nodup_reverse.mpr hnd
  have hsr : s ∈ inputs.reverse := List.mem_reverse.mpr hs
  have hfind := find?_keyed_eq_some InputSpec.name inputs.reverse s hndr hsr
  refine ⟨?_, ?_, ?_, ?_⟩
  · show Dict.get? (collect_inputs inputs).1 s.name = some { type := s.type }
    rw [collect_inputs_fst_get?, hfind]
    rfl
  · show Dict.countKey (collect_inputs inputs).1 s.name = 1
    rw [collect_inputs_fst_countKey,
      if_pos (List.mem_map_of_mem InputSpec.name hs)]
  · intro ho
    have hfind2 := find?_keyed_and_eq_some InputSpec.name InputSpec.optional
      inputs.reverse s hndr hsr ho
    have hget2 : Dict.get? (collect_inputs inputs).2 s.name =
        some { type := s.type, artifacts := [{ type := s.type }] } := by
      rw [collect_inputs_snd_get?, hfind2]
      rfl
    refine ⟨hget2, ?_⟩
    show Dict.countKey (collect_inputs inputs).2 s.name = 1
    exact Dict.countKey_eq_one _ _ (collect_inputs_snd_nodup inputs)
      (by rw [mem_keys_iff_get?, hget2]; simp)
  · intro ho
    have hfind3 := find?_keyed_and_eq_none InputSpec.name InputSpec.optional
      inputs.reverse s hndr hsr ho
    show Dict.get? (collect_inputs inputs).2 s.name = none
    rw [collect_inputs_snd_get?, hfind3]
    rfl

/-- Witness for C2 at a concrete component with one required and one
optional input. -/
theorem claim_C2_witness :
    Dict.get? (create_container_component "C"
        (some [{ name := "data", type := 1, optional := false },
               { name := "extra", type := 2, optional := true }])
        none none "img" []).default_input_channels "extra" =
      some { type := 2, artifacts := [{ type := 2 }] } :=
  ((claim_C2 "C" none none "img" []
      [{ name := "data", type := 1, optional := false },
       { name := "extra", type := 2, optional := true }]
      (by decide) { name := "extra", type := 2, optional := true }
      (by decide)).2.2.1 rfl).1

/-- Claim C3: for every `outputs` list (with pairwise-distinct names), each
output descriptor produces exactly one output-channel declaration keyed by
its name, and — unconditionally, since output descriptors have no optional
flag — exactly one default channel wrapping a single empty-artifact
instance of its declared type. -/
theorem claim_C3 (name : String) (inputs : Option (List InputSpec))
    (parameters : Option (List InputSpec)) (image : String)
    (command : List CommandlineArgumentType) (outputs : List OutputSpec)
    (hnd : (outputs.map OutputSpec.name).Nodup) (s : OutputSpec)
    (hs : s ∈ outputs) :
    Dict.get? (create_container_component name inputs (some outputs)
        parameters image command).SPEC_CLASS.OUTPUTS s.name =
      some { type := s.type } ∧
    Dict.countKey (create_container_component name inputs (some outputs)
        parameters image command).SPEC_CLASS.OUTPUTS s.name = 1 ∧
    Dict.get? (create_container_component name inputs (some outputs)
        parameters image command).output_channels s.name =
      some { type := s.type, artifacts := [{ type := s.type }] } ∧
    Dict.countKey (create_container_component name inputs (some outputs)
        parameters image command).output_channels s.name = 1 := by
  have hndr : (outputs.reverse.map OutputSpec.name).Nodup := by
    rw [List.map_reverse]
    exact List.nodup_reverse.mpr hnd
  have hsr : s ∈ outputs.reverse := List.mem_reverse.mpr hs
  have hfind := find?_keyed_eq_some OutputSpec.name outputs.reverse s hndr hsr
  refine ⟨?_, ?_, ?_, ?_⟩
  · show Dict.get? (collect_outputs outputs).1 s.name = some { type := s.type }
    rw [collect_outputs_fst_get?, hfind]
    rfl
  · show Dict.countKey (collect_outputs outputs).1 s.name = 1
    rw [collect_outputs_fst_countKey,
      if_pos (List.mem_map_of_mem OutputSpec.name hs)]
  · show Dict.get? (collect_outputs outputs).2 s.name =
      some { type := s.type, artifacts := [{ type := s.type }] }
    rw [collect_outputs_snd_get?, hfind]
    rfl
  · show Dict.countKey (collect_outputs outputs).2 s.name = 1
    rw [collect_outputs_snd_countKey,
      if_pos (List.mem_map_of_mem OutputSpec.name hs)]

/-- Witness for C3 at a concrete component with one output. -/
theorem claim_C3_witness :
    Dict.get? (create_container_component "C" none
        (some [{ name := "model", type := 2 }])
        none "img" []).output_channels "model" =
      some { type := 2, artifacts := [{ type := 2 }] } :=
  (claim_C3 "C" none none "img" [] [{ name := "model", type := 2 }]
    (by decide) { name := "model", type := 2 } (by decide)).2.2.1

/-- Claim C4: the factory's specification class carries exactly the three
accumulated declaration maps (and the component-name-plus-`Spec`
identifier), and the component class is bound to that specification class
and to an executor descriptor carrying exactly the given image string and
command-line template. -/
theorem claim_C4 (name : String) (inputs : Option (List InputSpec))
    (outputs : Option (List OutputSpec)) (parameters : Option (List InputSpec))
    (image : String) (command : List CommandlineArgumentType) :
    (create_container_component name inputs outputs parameters image
        command).SPEC_CLASS.PARAMETERS =
      collect_execution_parameters (parameters.getD []) ∧
    (create_container_component name inputs outputs parameters image
        command).SPEC_CLASS.INPUTS = (collect_inputs (inputs.getD [])).1 ∧
    (create_container_component name inputs outputs parameters image
        command).SPEC_CLASS.OUTPUTS = (collect_outputs (outputs.getD [])).1 ∧
    (create_container_component name inputs outputs parameters image
        command).SPEC_CLASS =
      { name := (create_container_component name inputs outputs parameters
            image command).name ++ "Spec"
        PARAMETERS := collect_execution_parameters (parameters.getD [])
        INPUTS := (collect_inputs (inputs.getD [])).1
        OUTPUTS := (collect_outputs (outputs.getD [])).1 } ∧
    (create_container_component name inputs outputs parameters image
        command).EXECUTOR_SPEC.image = image ∧
    (create_container_component name inputs outputs parameters image
        command).EXECUTOR_SPEC.command = command :=
  ⟨rfl, rfl, rfl, rfl, rfl, rfl⟩

/-- Claim C5: for every `parameters` list (with pairwise-distinct names),
each parameter descriptor produces exactly one execution-parameter
declaration keyed by its name and typed with its type, and no default of
any kind is registered for parameters: every other part of the generated
component is independent of the `parameters` argument. -/
theorem claim_C5 (name : String) (inputs : Option (List InputSpec))
    (outputs : Option (List OutputSpec)) (image : String)
    (command : List CommandlineArgumentType) (parameters : List InputSpec)
    (hnd : (parameters.map InputSpec.name).Nodup) (s : InputSpec)
    (hs : s ∈ parameters) :
    Dict.get? (create_container_component name inputs outputs
        (some parameters) image command).SPEC_CLASS.PARAMETERS s.name =
      some { type := s.type } ∧
    Dict.countKey (create_container_component name inputs outputs
        (some parameters) image command).SPEC_CLASS.PARAMETERS s.name = 1 ∧
    ∀ parameters' : Option (List InputSpec),
      (create_container_component name inputs outputs parameters' image
          command).SPEC_CLASS.INPUTS =
        (create_container_component name inputs outputs (some parameters)
          image command).SPEC_CLASS.INPUTS ∧
      (create_container_component name inputs outputs parameters' image
          command).SPEC_CLASS.OUTPUTS =
        (create_container_component name inputs outputs (some parameters)
          image command).SPEC_CLASS.OUTPUTS ∧
      (create_container_component name inputs outputs parameters' image
          command).default_input_channels =
        (create_container_component name inputs outputs (some parameters)
          image command).default_input_channels ∧
      (create_container_component name inputs outputs parameters' image
          command).output_channels =
        (create_container_component name inputs outputs (some parameters)
          image command).output_channels ∧
      (create_container_component name inputs outputs parameters' image
          command).EXECUTOR_SPEC =
        (create_container_component name inputs outputs (some parameters)
          image command).EXECUTOR_SPEC ∧
      (create_container_component name inputs outputs parameters' image
          command).name =
        (create_container_component name inputs outputs (some parameters)
          image command).name := by
  have hndr : (parameters.reverse.map InputSpec.name).Nodup := by
    rw [List.map_reverse]
    exact List.nodup_reverse.mpr hnd
  have hsr : s ∈ parameters.reverse := List.mem_reverse.mpr hs
  have hfind := find?_keyed_eq_some InputSpec.name parameters.reverse s hndr hsr
  refine ⟨?_, ?_, fun _ => ⟨rfl, rfl, rfl, rfl, rfl, rfl⟩⟩
  · show Dict.get? (collect_execution_parameters parameters) s.name =
      some { type := s.type }
    rw [collect_execution_parameters_get?, hfind]
    rfl
  · show Dict.countKey (collect_execution_parameters parameters) s.name = 1
    rw [collect_execution_parameters_countKey,
      if_pos (List.mem_map_of_mem InputSpec.name hs)]

/-- Witness for C5 at a concrete component with one parameter. -/
theorem claim_C5_witness :
    Dict.get? (create_container_component "C" none none
        (some [{ name := "num_steps", type := 3, optional := false }])
        "img" []).SPEC_CLASS.PARAMETERS "num_steps" = some { type := 3 } :=
  (claim_C5 "C" none none "img" []
    [{ name := "num_steps", type := 3, optional := false }] (by decide)
    { name := "num_steps", type := 3, optional := false } (by decide)).1

/-- Counterexample to claim C6 as stated: the empty name string is not
used verbatim — the generated component identifier is `"Component"`. -/
theorem claim_C6_counterexample :
    (create_container_component "" none none none "img" []).name =
      "Component" ∧ "Component" ≠ "" := by
  exact ⟨rfl, by decide⟩

/-- Claim C6, amended: for every NON-EMPTY `name`, the name is used
verbatim as the generated component identifier and, suffixed with `Spec`,
as the generated specification identifier; an empty (falsy) name is
replaced by `"Component"`. -/
theorem claim_C6_amended (name : String) (inputs : Option (List InputSpec))
    (outputs : Option (List OutputSpec)) (parameters : Option (List InputSpec))
    (image : String) (command : List CommandlineArgumentType)
    (h : name ≠ "") :
    (create_container_component name inputs outputs parameters image
        command).name = name ∧
    (create_container_component name inputs outputs parameters image
        command).SPEC_CLASS.name = name ++ "Spec" := by
  constructor
  · show (if name = "" then "Component" else name) = name
    rw [if_neg h]
  · show (if name = "" then "Component" else name) ++ "Spec" = name ++ "Spec"
    rw [if_neg h]

/-- Witness for the amended C6 at a concrete non-empty name. -/
theorem claim_C6_witness :
    (create_container_component "MyComponent" none none none "img" []).name =
      "MyComponent" :=
  (claim_C6_amended "MyComponent" none none none "img" [] (by decide)).1

/-- Claim C7: the factory is deterministic and idempotent — two calls with
identical arguments yield component definitions with equal declaration
maps, equal default-channel dictionaries and equal executor descriptors,
and instantiation with identical keyword arguments behaves identically. -/
theorem claim_C7 (name : String) (inputs : Option (List InputSpec))
    (outputs : Option (List OutputSpec)) (parameters : Option (List InputSpec))
    (image : String) (command : List CommandlineArgumentType) :
    (create_container_component name inputs outputs parameters image
        command).SPEC_CLASS =
      (create_container_component name inputs outputs parameters image
        command).SPEC_CLASS ∧
    (create_container_component name inputs outputs parameters image
        command).default_input_channels =
      (create_container_component name inputs outputs parameters image
        command).default_input_channels ∧
    (create_container_component name inputs outputs parameters image
        command).output_channels =
      (create_container_component name inputs outputs parameters image
        command).output_channels ∧
    (create_container_component name inputs outputs parameters image
        command).EXECUTOR_SPEC =
      (create_container_component name inputs outputs parameters image
        command).EXECUTOR_SPEC ∧
    ∀ kwargs : Dict Value,
      tfx_component_class_init (create_container_component name inputs
        outputs parameters image command) kwargs =
      tfx_component_class_init (create_container_component name inputs
        outputs parameters image command) kwargs :=
  ⟨rfl, rfl, rfl, rfl, fun _ => rfl⟩

/-- Claim C8: each of `inputs`, `outputs`, `parameters` may be `None` or
the empty list; in either case the factory succeeds and the corresponding
declaration and default-channel dictionaries are empty. -/
theorem claim_C8 (name : String) (inputs : Option (List InputSpec))
    (outputs : Option (List OutputSpec)) (parameters : Option (List InputSpec))
    (image : String) (command : List CommandlineArgumentType) :
    ((inputs = none ∨ inputs = some []) →
      (create_container_component name inputs outputs parameters image
          command).SPEC_CLASS.INPUTS = [] ∧
      (create_container_component name inputs outputs parameters image
          command).default_input_channels = []) ∧
    ((outputs = none ∨ outputs = some []) →
      (create_container_component name inputs outputs parameters image
          command).SPEC_CLASS.OUTPUTS = [] ∧
      (create_container_component name inputs outputs parameters image
          command).output_channels = []) ∧
    ((parameters = none ∨ parameters = some []) →
      (create_container_component name inputs outputs parameters image
          command).SPEC_CLASS.PARAMETERS = []) := by
  refine ⟨?_, ?_, ?_⟩
  · rintro (rfl | rfl) <;> exact ⟨rfl, rfl⟩
  · rintro (rfl | rfl) <;> exact ⟨rfl, rfl⟩
  · rintro (rfl | rfl) <;> exact rfl

/-- Witness for C8: absent inputs and empty outputs both yield empty maps. -/
theorem claim_C8_witness :
    (create_container_component "C" none (some []) none "img"
        []).SPEC_CLASS.INPUTS = [] ∧
    (create_container_component "C" none (some []) none "img"
        []).SPEC_CLASS.OUTPUTS = [] :=
  ⟨((claim_C8 "C" none (some []) none "img" []).1 (Or.inl rfl)).1,
   ((claim_C8 "C" none (some []) none "img" []).2.1 (Or.inr rfl)).1⟩

/-- Counterexample to claim C9 as stated: with two same-named input
descriptors where only the FIRST is optional, the declaration comes from
the last descriptor (type 2), but the surviving default channel was
derived from the first descriptor (type 1), not from the last one — which
is not even optional. -/
theorem claim_C9_counterexample :
    Dict.get? (create_container_component "C"
        (some [{ name := "x", type := 1, optional := true },
               { name := "x", type := 2, optional := false }])
        none none "img" []).SPEC_CLASS.INPUTS "x" = some { type := 2 } ∧
    Dict.get? (create_container_component "C"
        (some [{ name := "x", type := 1, optional := true },
               { name := "x", type := 2, optional := false }])
        none none "img" []).default_input_channels "x" =
      some { type := 1, artifacts := [{ type := 1 }] } ∧
    ({ type := 1, artifacts := [{ type := 1 }] } : Channel) ≠
      create_channel_with_empty_artifact 2 ∧
    InputSpec.optional { name := "x", type := 2, optional := false } = false := by
  exact ⟨rfl, rfl, by decide, rfl⟩

/-- Claim C9, amended: with duplicate names in a descriptor list, each
declaration map holds exactly one entry per name, derived from the LAST
descriptor with that name; the default input channel for a name exists
exactly when some descriptor with that name is optional and is derived
from the last OPTIONAL descriptor with that name; output and parameter
entries all come from the last descriptor with the name; no error is
raised. -/
theorem claim_C9_amended (name : String) (inputs : Option (List InputSpec))
    (outputs : Option (List OutputSpec)) (parameters : Option (List InputSpec))
    (image : String) (command : List CommandlineArgumentType) (k : String) :
    Dict.get? (create_container_component name inputs outputs parameters
        image command).SPEC_CLASS.INPUTS k =
      (List.find? (fun s => s.name == k) (inputs.getD []).reverse).map
        (fun s => ({ type := s.type } : ChannelParameter)) ∧
    Dict.get? (create_container_component name inputs outputs parameters
        image command).default_input_channels k =
      (List.find? (fun s => s.name == k && s.optional)
          (inputs.getD []).reverse).map
        (fun s => create_channel_with_empty_artifact s.type) ∧
    Dict.get? (create_container_component name inputs outputs parameters
        image command).SPEC_CLASS.OUTPUTS k =
      (List.find? (fun s => s.name == k) (outputs.getD []).reverse).map
        (fun s => ({ type := s.type } : ChannelParameter)) ∧
    Dict.get? (create_container_component name inputs outputs parameters
        image command).output_channels k =
      (List.find? (fun s => s.name == k) (outputs.getD []).reverse).map
        (fun s => create_channel_with_empty_artifact s.type) ∧
    Dict.get? (create_container_component name inputs outputs parameters
        image command).SPEC_CLASS.PARAMETERS k =
      (List.find? (fun s => s.name == k) (parameters.getD []).reverse).map
        (fun s => ({ type := s.type } : ExecutionParameter)) ∧
    Dict.countKey (create_container_component name inputs outputs parameters
        image command).SPEC_CLASS.INPUTS k =
      (if k ∈ (inputs.getD []).map InputSpec.name then 1 else 0) ∧
    Dict.countKey (create_container_component name inputs outputs parameters
        image command).SPEC_CLASS.OUTPUTS k =
      (if k ∈ (outputs.getD []).map OutputSpec.name then 1 else 0) ∧
    Dict.countKey (create_container_component name inputs outputs parameters
        image command).SPEC_CLASS.PARAMETERS k =
      (if k ∈ (parameters.getD []).map InputSpec.name then 1 else 0) :=
  ⟨collect_inputs_fst_get? (inputs.getD []) k,
   collect_inputs_snd_get? (inputs.getD []) k,
   collect_outputs_fst_get? (outputs.getD []) k,
   collect_outputs_snd_get? (outputs.getD []) k,
   collect_execution_parameters_get? (parameters.getD []) k,
   collect_inputs_fst_countKey (inputs.getD []) k,
   collect_outputs_fst_countKey (outputs.getD []) k,
   collect_execution_parameters_countKey (parameters.getD []) k⟩

/-- Counterexample to claim C1 as stated: the name `"instance_name"` can
have a default channel (an optional input with that name), yet a
caller-supplied value for it is consumed by the constructor and does NOT
reach the specification instance — the default channel does. -/
theorem claim_C1_counterexample :
    Dict.get? (tfx_component_class_init (create_container_component "C"
        (some [{ name := "instance_name", type := 1, optional := true }])
        none none "img" [])
        [("instance_name", Value.int 5)]).spec.args "instance_name" =
      some (Value.channel { type := 1, artifacts := [{ type := 1 }] }) ∧
    Dict.get? (create_container_component "C"
        (some [{ name := "instance_name", type := 1, optional := true }])
        none none "img" []).default_input_channels "instance_name" =
      some { type := 1, artifacts := [{ type := 1 }] } ∧
    some (Value.channel { type := 1, artifacts := [{ type := 1 }] }) ≠
      some (Value.int 5) := by
  exact ⟨rfl, rfl, by decide⟩

/-- Claim C1, amended: the generated constructor builds the
specification-instance argument map by an ordered merge — first the
collected default input channels, then the collected default output
channels, then the caller-supplied keyword arguments with the
`'instance_name'` key removed, later sources winning on collision; in
particular, for any name other than `'instance_name'`, a caller-supplied
value for that name is the one that reaches the specification instance
(whether or not it has a default channel). -/
theorem claim_C1_amended (name : String) (inputs : Option (List InputSpec))
    (outputs : Option (List OutputSpec)) (parameters : Option (List InputSpec))
    (image : String) (command : List CommandlineArgumentType)
    (kwargs : Dict Value) (hnd : (Dict.keys kwargs).Nodup) :
    (tfx_component_class_init (create_container_component name inputs outputs
        parameters image command) kwargs).spec.args =
      Dict.update (Dict.update (Dict.update ([] : Dict Value)
          (Dict.mapVal Value.channel (create_container_component name inputs
            outputs parameters image command).default_input_channels))
          (Dict.mapVal Value.channel (create_container_component name inputs
            outputs parameters image command).output_channels))
        (Dict.erase kwargs "instance_name") ∧
    ∀ k v, k ≠ "instance_name" → Dict.get? kwargs k = some v →
      Dict.get? (tfx_component_class_init (create_container_component name
          inputs outputs parameters image command) kwargs).spec.args k =
        some v := by
  have hargs : (tfx_component_class_init (create_container_component name
      inputs outputs parameters image command) kwargs).spec.args =
    Dict.update (Dict.update (Dict.update ([] : Dict Value)
        (Dict.mapVal Value.channel (create_container_component name inputs
          outputs parameters image command).default_input_channels))
        (Dict.mapVal Value.channel (create_container_component name inputs
          outputs parameters image command).output_channels))
      (Dict.erase kwargs "instance_name") := rfl
  refine ⟨hargs, ?_⟩
  intro k v hk hv
  rw [hargs, Dict.get?_update]
  have hke : (Dict.keys (Dict.erase kwargs "instance_name")).Nodup :=
    nodup_keys_erase kwargs "instance_name" hnd
  rw [find?_reverse_of_nodup_keys _ _ hke]
  have hg : Dict.get? (Dict.erase kwargs "instance_name") k = some v := by
    rw [get?_erase_ne kwargs "instance_name" k hk]
    exact hv
  rw [Dict.get?] at hg
  cases hfind : List.find? (fun p => p.1 == k)
      (Dict.erase kwargs "instance_name") with
  | none =>
    rw [hfind] at hg
    simp at hg
  | some p =>
    rw [hfind] at hg
    exact hg

/-- Witness for the amended C1: a caller-supplied value for an
optional (defaulted) input overrides its default channel. -/
theorem claim_C1_witness :
    Dict.get? (tfx_component_class_init (create_container_component "C"
        (some [{ name := "x", type := 1, optional := true }]) none none
        "img" []) [("x", Value.int 5)]).spec.args "x" = some (Value.int 5) :=
  (claim_C1_amended "C" (some [{ name := "x", type := 1, optional := true }])
    none none "img" [] [("x", Value.int 5)] (by decide)).2 "x" (Value.int 5)
    (by decide) (by decide)

/-- Counterexample to claim C10 as stated: when the factory was given an
OPTIONAL INPUT named `"instance_name"`, its default channel lands in the
specification instance's arguments, so the key `'instance_name'` can
appear there. -/
theorem claim_C10_counterexample :
    Dict.get? (tfx_component_class_init (create_container_component "C"
        (some [{ name := "instance_name", type := 1, optional := true }])
        none none "img" []) []).spec.args "instance_name" ≠ none := by
  decide

/-- Claim C10, amended: the generated constructor pops the
`'instance_name'` keyword argument (defaulting to `None`) and passes it
only to the base component's initializer; the merged argument map is built
from the remaining keyword arguments unchanged, so — provided no DEFAULT
channel is itself keyed `'instance_name'` — that key never appears among
the specification instance's arguments. -/
theorem claim_C10_amended (name : String) (inputs : Option (List InputSpec))
    (outputs : Option (List OutputSpec)) (parameters : Option (List InputSpec))
    (image : String) (command : List CommandlineArgumentType)
    (kwargs : Dict Value)
    (h1 : "instance_name" ∉ Dict.keys (create_container_component name inputs
        outputs parameters image command).default_input_channels)
    (h2 : "instance_name" ∉ Dict.keys (create_container_component name inputs
        outputs parameters image command).output_channels) :
    (tfx_component_class_init (create_container_component name inputs outputs
        parameters image command) kwargs).instance_name =
      Dict.get? kwargs "instance_name" ∧
    (tfx_component_class_init (create_container_component name inputs outputs
        parameters image command) kwargs).spec.args =
      Dict.update (Dict.update (Dict.update ([] : Dict Value)
          (Dict.mapVal Value.channel (create_container_component name inputs
            outputs parameters image command).default_input_channels))
          (Dict.mapVal Value.channel (create_container_component name inputs
            outputs parameters image command).output_channels))
        (Dict.erase kwargs "instance_name") ∧
    Dict.get? (tfx_component_class_init (create_container_component name
        inputs outputs parameters image command) kwargs).spec.args
      "instance_name" = none := by
  have hargs : (tfx_component_class_init (create_container_component name
      inputs outputs parameters image command) kwargs).spec.args =
    Dict.update (Dict.update (Dict.update ([] : Dict Value)
        (Dict.mapVal Value.channel (create_container_component name inputs
          outputs parameters image command).default_input_channels))
        (Dict.mapVal Value.channel (create_container_component name inputs
          outputs parameters image command).output_channels))
      (Dict.erase kwargs "instance_name") := rfl
  refine ⟨rfl, hargs, ?_⟩
  rw [hargs,
    get?_update_not_mem _ _ _ (not_mem_keys_erase_self kwargs "instance_name"),
    get?_update_not_mem _ _ _ (by rw [keys_mapVal]; exact h2),
    get?_update_not_mem _ _ _ (by rw [keys_mapVal]; exact h1)]
  rfl

/-- Witness for the amended C10: a caller-supplied `'instance_name'` goes
to the base initializer and never into the specification arguments. -/
theorem claim_C10_witness :
    (tfx_component_class_init (create_container_component "C"
        (some [{ name := "data", type := 1, optional := true }]) none none
        "img" [])
        [("data", Value.int 3),
         ("instance_name", Value.str "i")]).instance_name =
      some (Value.str "i") ∧
    Dict.get? (tfx_component_class_init (create_container_component "C"
        (some [{ name := "data", type := 1, optional := true }]) none none
        "img" [])
        [("data", Value.int 3), ("instance_name", Value.str "i")]).spec.args
      "instance_name" = none := by
  have h := claim_C10_amended "C"
    (some [{ name := "data", type := 1, optional := true }]) none none
    "img" [] [("data", Value.int 3), ("instance_name", Value.str "i")]
    (by decide) (by decide)
  exact ⟨h.1.trans (by decide), h.2.2⟩
